import Mathlib

/-!
Shallow embedding of the igati-auth-service token-lifecycle core.

Source files embedded here:
- `src/services/authService.js` (user authentication, email-token verification,
  refresh-token storage/verification/revocation, resend-verification)
- `src/services/passwordResetService.js` (password-reset request and consumption)
- `src/services/adminService.js` (role updates and the single-SUPERUSER check)
- `src/api/auth.js` (verify / login / refresh / logout route handlers)
- `src/lib/jwt.js` (`parseExpiry`)
- `src/lib/encryption.js` (AES-256-GCM `encrypt` / `decrypt` of OAuth tokens)

Conventions of the embedding:
- The Prisma store is a `DB` record of lists; `findUnique`/`findFirst` become
  `List.find?`, `updateMany` becomes `List.map` guarded by the same `where`
  filter, `create` appends a row.
- Timestamps are naturals (milliseconds); `new Date()` is the explicit `now`
  argument, `expiresAt.setDate(getDate() + 30)` is `now + 30 * dayMs`.
- External cryptographic collaborators that the services call but do not
  implement (HMAC token hashing, argon2 verify/hash, jose JWT verification)
  are passed in as function-valued parameters in `Crypto`, mirroring the
  imported functions; the AES-256-GCM cipher of `encryption.js` is embedded
  executably in full further below.
- JavaScript falsy checks on string inputs (`if (!email)`) become `= ""`.
-/

/-- Error taxonomy of `src/middlewares/errorHandler.js`: each constructor is one
of the exported error classes, carrying its message. -/
inductive AppError where
  | validation (message : String)
  | authentication (message : String)
  | authorization (message : String)
  | notFound (message : String)
  | conflict (message : String)
  deriving DecidableEq

/-- HTTP status attached by the error classes in `errorHandler.js`. -/
def AppError.statusCode : AppError → Nat
  | .validation _ => 400
  | .authentication _ => 401
  | .authorization _ => 403
  | .notFound _ => 404
  | .conflict _ => 409

/-- `User` row of the Prisma schema (fields the embedded services read). -/
structure User where
  id : String
  email : String
  passwordHash : Option String
  emailVerified : Bool
  role : String
  deriving DecidableEq

/-- `EmailToken` row: hash of the verification token, one-shot `used` flag. -/
structure EmailTokenRow where
  id : String
  userId : String
  tokenHash : String
  used : Bool
  expiresAt : Nat
  deriving DecidableEq

/-- `PasswordResetToken` row, structurally mirroring `EmailTokenRow`. -/
structure ResetTokenRow where
  id : String
  userId : String
  tokenHash : String
  used : Bool
  expiresAt : Nat
  deriving DecidableEq

/-- `RefreshToken` row: hash of the refresh JWT plus revocation state. -/
structure RefreshTokenRow where
  id : String
  userId : String
  tokenHash : String
  expiresAt : Nat
  revoked : Bool
  revokedAt : Option Nat
  deriving DecidableEq

/-- The relational store visible to the embedded services. -/
structure DB where
  users : List User
  emailTokens : List EmailTokenRow
  resetTokens : List ResetTokenRow
  refreshTokens : List RefreshTokenRow
  deriving DecidableEq

/-- Decoded JWT payload as returned by `verifyToken` in `src/lib/jwt.js`. -/
structure JwtPayload where
  userId : String
  email : Option String
  type : String
  deriving DecidableEq

/-- External cryptographic collaborators, passed by parameter: `hashToken`
(HMAC-SHA256 with `TOKEN_HASH_SECRET`, `src/utils/tokenUtils.js`),
`argonVerify`/`argonHash` (argon2id, parameters fixed in the source), and
`jwtVerify` (jose `jwtVerify` at a given clock instant; `none` models the
thrown verification error). -/
structure Crypto where
  hashToken : String → String
  argonVerify : String → String → Bool
  argonHash : String → String
  jwtVerify : String → Nat → Option JwtPayload

/-- Configuration surface of `src/lib/config.js` read by the embedded code. -/
structure Config where
  JWT_ACCESS_EXPIRY : String
  JWT_REFRESH_EXPIRY : String
  ALLOW_UNVERIFIED_LOGIN : Bool
  EMAIL_TOKEN_EXPIRY_HOURS : Nat
  deriving DecidableEq

def hourMs : Nat := 3600000

def dayMs : Nat := 86400000

/-- Minimal user view returned by `authenticateUser`. -/
structure UserView where
  id : String
  email : String
  emailVerified : Bool
  role : String
  deriving DecidableEq

/-- `validatePassword` of `authService.js` / `passwordResetService.js`
(identical in both): at least 8 characters, one uppercase, one lowercase,
one digit; returns the failure message when invalid. -/
def validatePassword (password : String) : Option String :=
  if password = "" ∨ password.length < 8 then
    some "Password must be at least 8 characters long"
  else if ¬ password.toList.any Char.isUpper then
    some "Password must contain at least one uppercase letter"
  else if ¬ password.toList.any Char.isLower then
    some "Password must contain at least one lowercase letter"
  else if ¬ password.toList.any Char.isDigit then
    some "Password must contain at least one number"
  else
    none

/-- `email.toLowerCase().trim()` as the services normalize emails, written
over the character list (ASCII case mapping, which is the behavior relevant
to the embedded flows). -/
def normalizeEmail (email : String) : String :=
  String.mk ((((email.toList.map Char.toLower).dropWhile Char.isWhitespace).reverse.dropWhile
    Char.isWhitespace).reverse)

/-- `authenticateUser` of `authService.js`: generic `AuthenticationError` for
a missing user, a password-less (OAuth-only) user, and a wrong password. -/
def authenticateUser (c : Crypto) (cfg : Config) (db : DB)
    (email password : String) : Except AppError UserView :=
  if email = "" ∨ password = "" then
    .error (.validation "Email and password are required")
  else
    let normalizedEmail := normalizeEmail email
    match db.users.find? (fun u => u.email == normalizedEmail) with
    | none => .error (.authentication "Invalid email or password")
    | some user =>
      match user.passwordHash with
      | none => .error (.authentication "Invalid email or password")
      | some pwHash =>
        if ¬ c.argonVerify pwHash password then
          .error (.authentication "Invalid email or password")
        else if ¬ cfg.ALLOW_UNVERIFIED_LOGIN ∧ ¬ user.emailVerified then
          .error (.authentication "Please verify your email address before logging in")
        else
          .ok ⟨user.id, user.email, user.emailVerified, user.role⟩

/-- `verifyEmailToken` of `authService.js`: hash the incoming token, find an
unused unexpired `EmailToken`, and atomically mark it used and the user
verified; `NotFoundError` when no row matches. -/
def verifyEmailToken (c : Crypto) (db : DB) (token : String) (now : Nat) :
    Except AppError UserView × DB :=
  if token = "" then
    (.error (.validation "Verification token is required"), db)
  else
    let tokenHash := c.hashToken token
    match db.emailTokens.find?
        (fun r => r.tokenHash == tokenHash && r.used == false && now < r.expiresAt) with
    | none => (.error (.notFound "Invalid or expired verification token"), db)
    | some row =>
      let db1 : DB :=
        { db with
          emailTokens := db.emailTokens.map
            (fun r => if r.id == row.id then { r with used := true } else r),
          users := db.users.map
            (fun u => if u.id == row.userId then { u with emailVerified := true } else u) }
      match db1.users.find? (fun u => u.id == row.userId) with
      | some user => (.ok ⟨user.id, user.email, user.emailVerified, user.role⟩, db1)
      | none => (.error (.notFound "Invalid or expired verification token"), db)

/-- `resendVerificationEmail` of `authService.js`. `freshToken` stands for the
random token produced by `generateTokenPair`; the enqueue of the email job is
a side channel with no store effect and is not modelled. Note the source
throws `NotFoundError` for an unknown email and `ConflictError` for an
already-verified one. -/
def resendVerificationEmail (c : Crypto) (cfg : Config) (db : DB)
    (email : String) (freshToken : String) (now : Nat) (freshId : String) :
    Except AppError String × DB :=
  if email = "" then
    (.error (.validation "Email is required"), db)
  else
    let normalizedEmail := normalizeEmail email
    match db.users.find? (fun u => u.email == normalizedEmail) with
    | none =>
      (.error (.notFound "If an account exists with this email, a verification email has been sent"), db)
    | some user =>
      if user.emailVerified then
        (.error (.conflict "Email address is already verified"), db)
      else
        let row : EmailTokenRow :=
          ⟨freshId, user.id, c.hashToken freshToken, false,
            now + cfg.EMAIL_TOKEN_EXPIRY_HOURS * hourMs⟩
        (.ok "If an account exists with this email, a verification email has been sent",
          { db with emailTokens := db.emailTokens ++ [row] })

/-- `storeRefreshToken` of `authService.js`: insert a new `RefreshToken` row. -/
def storeRefreshToken (db : DB) (freshId userId refreshTokenHash : String)
    (expiresAt : Nat) : DB :=
  { db with refreshTokens :=
      db.refreshTokens ++ [⟨freshId, userId, refreshTokenHash, expiresAt, false, none⟩] }

/-- `verifyRefreshToken` of `authService.js`: find a non-revoked, unexpired row
by token hash; `AuthenticationError` otherwise. -/
def verifyRefreshToken (db : DB) (refreshTokenHash : String) (now : Nat) :
    Except AppError RefreshTokenRow :=
  match db.refreshTokens.find?
      (fun r => r.tokenHash == refreshTokenHash && r.revoked == false && now < r.expiresAt) with
  | none => .error (.authentication "Invalid or expired refresh token")
  | some row => .ok row

/-- `revokeRefreshToken` of `authService.js`: `updateMany` setting
`revoked = true, revokedAt = now` on every non-revoked row with this hash. -/
def revokeRefreshToken (db : DB) (refreshTokenHash : String) (now : Nat) : DB :=
  let rows := db.refreshTokens.map
    (fun r => if r.tokenHash == refreshTokenHash && r.revoked == false then
        { r with revoked := true, revokedAt := some now } else r)
  { db with refreshTokens := rows }

/-- `revokeAllUserRefreshTokens` of `authService.js`: `updateMany` over every
non-revoked row of one user. -/
def revokeAllUserRefreshTokens (db : DB) (userId : String) (now : Nat) : DB :=
  let rows := db.refreshTokens.map
    (fun r => if r.userId == userId && r.revoked == false then
        { r with revoked := true, revokedAt := some now } else r)
  { db with refreshTokens := rows }

/-- `requestPasswordReset` of `passwordResetService.js`: for an unknown email
or an OAuth-only (password-less) user it returns the generic success message
without touching the store; otherwise it persists a `PasswordResetToken` with
a 1-hour expiry and returns the same generic message. -/
def requestPasswordReset (c : Crypto) (db : DB) (email : String)
    (freshToken : String) (now : Nat) (freshId : String) :
    Except AppError String × DB :=
  if email = "" then
    (.error (.validation "Email is required"), db)
  else
    let normalizedEmail := normalizeEmail email
    match db.users.find? (fun u => u.email == normalizedEmail) with
    | none =>
      (.ok "If an account exists with this email, a password reset link has been sent", db)
    | some user =>
      match user.passwordHash with
      | none =>
        (.ok "If an account exists with this email, a password reset link has been sent", db)
      | some _ =>
        let row : ResetTokenRow :=
          ⟨freshId, user.id, c.hashToken freshToken, false, now + 1 * hourMs⟩
        (.ok "If an account exists with this email, a password reset link has been sent",
          { db with resetTokens := db.resetTokens ++ [row] })

/-- `verifyPasswordResetToken` of `passwordResetService.js`. -/
def verifyPasswordResetToken (c : Crypto) (db : DB) (token : String) (now : Nat) :
    Except AppError ResetTokenRow :=
  if token = "" then
    .error (.validation "Reset token is required")
  else
    let tokenHash := c.hashToken token
    match db.resetTokens.find?
        (fun r => r.tokenHash == tokenHash && r.used == false && now < r.expiresAt) with
    | none => .error (.notFound "Invalid or expired reset token")
    | some row => .ok row

/-- The `prisma.$transaction` block inside `resetPassword` (lines 206-218 of
`passwordResetService.js`): mark the reset token used and update the user's
password hash, as one atomic unit. -/
def resetPasswordTxn (db : DB) (rowId userId passwordHash : String) : DB :=
  let tokens := db.resetTokens.map
    (fun r => if r.id == rowId then { r with used := true } else r)
  let users := db.users.map
    (fun u => if u.id == userId then { u with passwordHash := some passwordHash } else u)
  { db with resetTokens := tokens, users := users }

/-- `resetPassword` of `passwordResetService.js`: validate the new password,
consume the token and update the password inside `resetPasswordTxn`, and then
— as a separate `prisma.refreshToken.updateMany` statement issued after that
transaction has committed (lines 221-230) — revoke all of the user's active
refresh tokens. -/
def resetPassword (c : Crypto) (db : DB) (token newPassword : String) (now : Nat) :
    Except AppError String × DB :=
  if token = "" ∨ newPassword = "" then
    (.error (.validation "Token and new password are required"), db)
  else
    match validatePassword newPassword with
    | some msg => (.error (.validation msg), db)
    | none =>
      match verifyPasswordResetToken c db token now with
      | .error e => (.error e, db)
      | .ok row =>
        let db1 := resetPasswordTxn db row.id row.userId (c.argonHash newPassword)
        let db2 := revokeAllUserRefreshTokens db1 row.userId now
        (.ok "Password has been reset successfully. Please log in with your new password.", db2)

/-- `updateUserRole` of the admin service: validation, the
only-SUPERUSER-assigns-SUPERUSER rule, the no-op conflict, and the
single-SUPERUSER uniqueness check before the role write. -/
def updateUserRole (db : DB) (targetUserId newRole currentUserRole : String) :
    Except AppError User × DB :=
  if targetUserId = "" ∨ newRole = "" then
    (.error (.validation "User ID and role are required"), db)
  else if ¬ (newRole = "USER" ∨ newRole = "MANAGER" ∨ newRole = "ADMIN" ∨ newRole = "SUPERUSER") then
    (.error (.validation "Invalid role. Must be one of: USER, MANAGER, ADMIN, SUPERUSER"), db)
  else if newRole = "SUPERUSER" ∧ currentUserRole ≠ "SUPERUSER" then
    (.error (.authorization "Only superusers can assign the SUPERUSER role"), db)
  else
    match db.users.find? (fun u => u.id == targetUserId) with
    | none => (.error (.notFound "User not found"), db)
    | some targetUser =>
      if targetUser.role = newRole then
        (.error (.conflict ("User already has the role: " ++ newRole)), db)
      else if newRole = "SUPERUSER" ∧
          (db.users.find? (fun u => u.role == "SUPERUSER" && u.id != targetUserId)).isSome then
        (.error (.conflict "A superuser already exists. Only one superuser is allowed."), db)
      else
        let users := db.users.map
          (fun u => if u.id == targetUserId then { u with role := newRole } else u)
        (.ok { targetUser with role := newRole }, { db with users := users })

/-- `parseExpiry` of `src/lib/jwt.js`: parse strings like `15m`, `30d` into
seconds; the source throws on anything not matching the regex, modelled as
`none`. -/
def parseExpiry (expiry : String) : Option Nat :=
  let cs := expiry.toList
  match cs.getLast? with
  | none => none
  | some unit =>
    let digits := cs.dropLast
    if digits = [] ∨ ¬ digits.all Char.isDigit then none
    else
      let value := digits.foldl (fun a c => a * 10 + (c.toNat - 48)) 0
      if unit = 's' then some (value * 1)
      else if unit = 'm' then some (value * 60)
      else if unit = 'h' then some (value * 3600)
      else if unit = 'd' then some (value * 86400)
      else none

/-- Response of a route handler: HTTP status, body message, and the error code
name when the body is an error envelope. -/
structure HandlerResponse where
  status : Nat
  errorCode : Option String
  message : String
  deriving DecidableEq

/-- Success response helper. -/
def okResponse (message : String) : HandlerResponse := ⟨200, none, message⟩

/-- Error envelope as produced by `errorHandler.js` from an `AppError`. -/
def errorResponse (e : AppError) : HandlerResponse :=
  match e with
  | .validation m => ⟨400, some "ValidationError", m⟩
  | .authentication m => ⟨401, some "AuthenticationError", m⟩
  | .authorization m => ⟨403, some "AuthorizationError", m⟩
  | .notFound m => ⟨404, some "NotFoundError", m⟩
  | .conflict m => ⟨409, some "ConflictError", m⟩

/-- `GET /api/auth/verify` handler of `src/api/auth.js`: verify the email
token, then auto-login by persisting the hash of a fresh refresh token with a
hardcoded 30-day expiry (`expiresAt.setDate(expiresAt.getDate() + 30)`).
`freshRefresh` stands for the signed JWT from `createRefreshToken`. -/
def verifyHandler (c : Crypto) (cfg : Config) (db : DB) (token : String)
    (freshRefresh : String) (now : Nat) (freshId : String) :
    HandlerResponse × DB :=
  if token = "" then
    (⟨400, some "ValidationError", "Verification token is required"⟩, db)
  else
    match verifyEmailToken c db token now with
    | (.error e, db1) => (errorResponse e, db1)
    | (.ok user, db1) =>
      let db2 := storeRefreshToken db1 freshId user.id (c.hashToken freshRefresh)
        (now + 30 * dayMs)
      (okResponse "Email verified successfully. You are now logged in.", db2)

/-- `POST /api/auth/login` handler of `src/api/auth.js`: authenticate, then
persist the hash of a fresh refresh token with the hardcoded 30-day expiry. -/
def loginHandler (c : Crypto) (cfg : Config) (db : DB) (email password : String)
    (freshRefresh : String) (now : Nat) (freshId : String) :
    HandlerResponse × DB :=
  match authenticateUser c cfg db email password with
  | .error e => (errorResponse e, db)
  | .ok user =>
    let db2 := storeRefreshToken db freshId user.id (c.hashToken freshRefresh)
      (now + 30 * dayMs)
    (okResponse "Login successful", db2)

/-- `POST /api/auth/refresh` handler of `src/api/auth.js`: cookie presence,
JWT verification with the `type = refresh` post-check, database hash lookup,
revocation of the presented hash (rotation), and persistence of the fresh
refresh token's hash with the hardcoded 30-day expiry. -/
def refreshHandler (c : Crypto) (cfg : Config) (db : DB)
    (cookie : Option String) (freshRefresh : String) (now : Nat) (freshId : String) :
    HandlerResponse × DB :=
  match cookie with
  | none => (⟨401, some "AuthenticationError", "Refresh token not found"⟩, db)
  | some refreshToken =>
    if refreshToken = "" then
      (⟨401, some "AuthenticationError", "Refresh token not found"⟩, db)
    else
      match c.jwtVerify refreshToken now with
      | none => (⟨401, some "AuthenticationError", "Invalid or expired refresh token"⟩, db)
      | some payload =>
        if payload.type ≠ "refresh" then
          (⟨401, some "AuthenticationError", "Invalid or expired refresh token"⟩, db)
        else
          let refreshTokenHash := c.hashToken refreshToken
          match verifyRefreshToken db refreshTokenHash now with
          | .error _ =>
            (⟨401, some "AuthenticationError", "Invalid or expired refresh token"⟩, db)
          | .ok tokenData =>
            let db1 := revokeRefreshToken db refreshTokenHash now
            let db2 := storeRefreshToken db1 freshId tokenData.userId
              (c.hashToken freshRefresh) (now + 30 * dayMs)
            (okResponse "Token refreshed successfully", db2)

/-- `POST /api/auth/logout` handler of `src/api/auth.js`: if a refresh-token
cookie is present, revoke the matching rows; always clear cookies and answer
200. -/
def logoutHandler (c : Crypto) (db : DB) (cookie : Option String) (now : Nat) :
    HandlerResponse × DB :=
  let db1 :=
    match cookie with
    | some refreshToken =>
      if refreshToken = "" then db
      else revokeRefreshToken db (c.hashToken refreshToken) now
    | none => db
  (okResponse "Logged out successfully", db1)

/-- The AES S-box (FIPS-197) packed little-endian into one natural: byte `b`
of the table sits at bit offset `8 * b`. -/
def sboxTable : Nat := 0x16bb54b00f2d99416842e6bf0d89a18cdf2855cee9871e9b948ed9691198f8e19e1dc186b95735610ef6034866b53e708a8bbd4b1f74dde8c6b4a61c2e2578ba08ae7a65eaf4566ca94ed58d6d37c8e779e4959162acd3c25c2406490a3a32e0db0b5ede14b8ee4688902a22dc4f816073195d643d7ea7c41744975fec130ccdd2f3ff1021dab6bcf5389d928f40a351a89f3c507f02f94585334d43fbaaefd0cf584c4a39becb6a5bb1fc20ed00d153842fe329b3d63b52a05a6e1b1a2c830975b227ebe28012079a059618c323c7041531d871f1e5a534ccf73f362693fdb7c072a49cafa2d4adf04759fa7dc982ca76abd7fe2b670130c56f6bf27b777c63

/-- S-box lookup. -/
def sbox (b : Nat) : Nat := (sboxTable >>> (8 * b)) % 256

/-- Apply the S-box to each byte of a 32-bit word. -/
def subWord (w : Nat) : Nat :=
  (sbox ((w >>> 24) % 256)) <<< 24 + (sbox ((w >>> 16) % 256)) <<< 16 +
  (sbox ((w >>> 8) % 256)) <<< 8 + sbox (w % 256)

/-- Rotate a 32-bit word left by one byte. -/
def rotWord (w : Nat) : Nat := ((w <<< 8) % 4294967296) + (w >>> 24)

/-- AES round constants (AES-256 uses the first seven). -/
def rcon (i : Nat) : Nat :=
  [0x01, 0x02, 0x04, 0x08, 0x10, 0x20, 0x40].getD (i - 1) 0

/-- AES-256 key expansion: a 32-byte key to 60 round-key words. -/
def keyExpansion (key : List Nat) : List Nat :=
  let w0 := (List.range 8).map (fun i =>
    (key.getD (4*i) 0) <<< 24 + (key.getD (4*i+1) 0) <<< 16 +
    (key.getD (4*i+2) 0) <<< 8 + key.getD (4*i+3) 0)
  (List.range 52).foldl (fun w j =>
    let i := j + 8
    let temp := w.getD (i-1) 0
    let temp :=
      if i % 8 == 0 then Nat.xor (subWord (rotWord temp)) ((rcon (i / 8)) <<< 24)
      else if i % 8 == 4 then subWord temp
      else temp
    w ++ [Nat.xor (w.getD (i-8) 0) temp]) w0

/-- Round key `n` as 16 bytes in column-major state order. -/
def roundKey (w : List Nat) (n : Nat) : List Nat :=
  (List.range 16).map (fun i =>
    let r := i % 4
    let c := i / 4
    ((w.getD (4*n + c) 0) >>> (8 * (3 - r))) % 256)

/-- SubBytes step. -/
def subBytes (s : List Nat) : List Nat := s.map sbox

/-- ShiftRows step on the flat column-major state. -/
def shiftRows (s : List Nat) : List Nat :=
  (List.range 16).map (fun i =>
    let r := i % 4
    let c := i / 4
    s.getD (r + 4 * ((c + r) % 4)) 0)

/-- Multiplication by x in GF(2^8) modulo the AES polynomial. -/
def xtime (b : Nat) : Nat := if b < 128 then 2 * b else Nat.xor (2 * b - 256) 27

/-- Multiplication by 3 in GF(2^8). -/
def mul3 (b : Nat) : Nat := Nat.xor (xtime b) b

/-- MixColumns on one column. -/
def mixColumn (a0 a1 a2 a3 : Nat) : List Nat :=
  [ Nat.xor (Nat.xor (xtime a0) (mul3 a1)) (Nat.xor a2 a3),
    Nat.xor (Nat.xor a0 (xtime a1)) (Nat.xor (mul3 a2) a3),
    Nat.xor (Nat.xor a0 a1) (Nat.xor (xtime a2) (mul3 a3)),
    Nat.xor (Nat.xor (mul3 a0) a1) (Nat.xor a2 (xtime a3)) ]

/-- MixColumns step. -/
def mixColumns (s : List Nat) : List Nat :=
  (List.range 4).flatMap (fun c =>
    mixColumn (s.getD (4*c) 0) (s.getD (4*c+1) 0) (s.getD (4*c+2) 0) (s.getD (4*c+3) 0))

/-- AddRoundKey step. -/
def addRoundKey (s rk : List Nat) : List Nat := s.zipWith Nat.xor rk

/-- AES-256 block encryption (FIPS-197): 32-byte key, 16-byte block. -/
def aes256Block (key block : List Nat) : List Nat :=
  let w := keyExpansion key
  let s0 := addRoundKey block (roundKey w 0)
  let s := (List.range 13).foldl (fun s n =>
    addRoundKey (mixColumns (shiftRows (subBytes s))) (roundKey w (n+1))) s0
  addRoundKey (shiftRows (subBytes s)) (roundKey w 14)

/-- Big-endian bytes-to-natural conversion. -/
def bytesToNat (l : List Nat) : Nat := l.foldl (fun a b => a * 256 + b) 0

/-- A natural to 16 big-endian bytes (one GCM block). -/
def natToBytes16 (n : Nat) : List Nat :=
  (List.range 16).map (fun i => (n >>> (8 * (15 - i))) % 256)

/-- A bit length to 8 big-endian bytes (half of a GCM length block). -/
def lenBytes8 (n : Nat) : List Nat :=
  (List.range 8).map (fun i => (n >>> (8 * (7 - i))) % 256)

/-- Carry-less GF(2^128) product with the GCM reduction polynomial
(SP 800-38D algorithm 1, bit-reflected convention folded into the shift). -/
def gfmul128 (x y : Nat) : Nat :=
  ((List.range 128).foldl (fun (acc : Nat × Nat) i =>
    let z := acc.1
    let v := acc.2
    let z1 := if Nat.testBit y (127 - i) then Nat.xor z v else z
    let v1 := if v % 2 == 1 then Nat.xor (v / 2) 0xe1000000000000000000000000000000 else v / 2
    (z1, v1)) (0, x)).1

/-- GHASH over a list of 128-bit blocks. -/
def ghash (h : Nat) (blocks : List Nat) : Nat :=
  blocks.foldl (fun y x => gfmul128 (Nat.xor y x) h) 0

/-- Split a byte list into 16-byte chunks (structural recursion so that the
kernel can evaluate it on concrete blobs). -/
def chunks16 : List Nat → List (List Nat)
  | [] => []
  | a0 :: a1 :: a2 :: a3 :: a4 :: a5 :: a6 :: a7 ::
    a8 :: a9 :: a10 :: a11 :: a12 :: a13 :: a14 :: a15 :: rest =>
    [a0, a1, a2, a3, a4, a5, a6, a7, a8, a9, a10, a11, a12, a13, a14, a15] ::
      chunks16 rest
  | l => [l]

/-- Zero-pad a byte list up to a multiple of 16 bytes. -/
def pad16 (l : List Nat) : List Nat :=
  l ++ List.replicate ((16 - l.length % 16) % 16) 0

/-- Add `i` to the low 32 bits of a counter block (iterated `inc32`). -/
def addCtr (b i : Nat) : Nat :=
  (b / 4294967296) * 4294967296 + ((b + i) % 4294967296)

/-- The GCM hash subkey H = CIPH_K(0^128). -/
def gcmH (key : List Nat) : Nat := bytesToNat (aes256Block key (List.replicate 16 0))

/-- The GCM pre-counter block J0; the source uses 16-byte IVs, which take the
GHASH branch of SP 800-38D (a 12-byte IV would take the concatenation
branch). -/
def gcmJ0 (key iv : List Nat) : Nat :=
  if iv.length == 12 then bytesToNat iv * 4294967296 + 1
  else ghash (gcmH key) ((chunks16 (pad16 iv)).map bytesToNat ++
    [bytesToNat (lenBytes8 0 ++ lenBytes8 (8 * iv.length))])

/-- The first `n` CTR keystream bytes, counters starting at inc32(J0). -/
def gcmKeystream (key iv : List Nat) (n : Nat) : List Nat :=
  (((List.range ((n + 15) / 16)).map
    (fun i => aes256Block key (natToBytes16 (addCtr (gcmJ0 key iv) (1 + i))))).flatten).take n

/-- The 16-byte GCM authentication tag over a ciphertext (no associated
data, as in the source). -/
def gcmTag (key iv ct : List Nat) : List Nat :=
  let s := ghash (gcmH key) ((chunks16 (pad16 ct)).map bytesToNat ++
    [bytesToNat (lenBytes8 0 ++ lenBytes8 (8 * ct.length))])
  natToBytes16 (Nat.xor (bytesToNat (aes256Block key (natToBytes16 (gcmJ0 key iv)))) s)

/-- The base64 alphabet of `Buffer.toString('base64')`. -/
def b64Char (i : Nat) : Char :=
  "ABCDEFGHIJKLMNOPQRSTUVWXYZabcdefghijklmnopqrstuvwxyz0123456789+/".toList.getD i 'A'

/-- Index of a character in the base64 alphabet, `none` for `=` / invalid
characters (which Node's decoder skips). -/
def b64Index (c : Char) : Option Nat :=
  ("ABCDEFGHIJKLMNOPQRSTUVWXYZabcdefghijklmnopqrstuvwxyz0123456789+/".toList.findIdx?
    (fun a => a == c))

/-- Standard base64 encoding of a byte list (`Buffer.toString('base64')`). -/
def b64EncodeChars : List Nat → List Char
  | [] => []
  | [b0] => [b64Char (b0 >>> 2), b64Char ((b0 % 4) <<< 4), '=', '=']
  | [b0, b1] =>
    [b64Char (b0 >>> 2), b64Char (((b0 % 4) <<< 4) + (b1 >>> 4)),
     b64Char ((b1 % 16) <<< 2), '=']
  | b0 :: b1 :: b2 :: rest =>
    b64Char (b0 >>> 2) :: b64Char (((b0 % 4) <<< 4) + (b1 >>> 4)) ::
    b64Char (((b1 % 16) <<< 2) + (b2 >>> 6)) :: b64Char (b2 % 64) ::
    b64EncodeChars rest

/-- Base64 encoding to a string. -/
def b64Encode (l : List Nat) : String := String.mk (b64EncodeChars l)

/-- Reassemble bytes from a list of sextets, four at a time; a trailing group
of three yields two bytes, of two yields one byte (its low four bits are
discarded, exactly as `Buffer.from(s, 'base64')` discards them), and a lone
trailing sextet is dropped. -/
def b64Bytes : List Nat → List Nat
  | s0 :: s1 :: s2 :: s3 :: rest =>
    ((s0 <<< 2) + (s1 >>> 4)) :: (((s1 % 16) <<< 4) + (s2 >>> 2)) ::
    (((s2 % 4) <<< 6) + s3) :: b64Bytes rest
  | [s0, s1, s2] =>
    [(s0 <<< 2) + (s1 >>> 4), ((s1 % 16) <<< 4) + (s2 >>> 2)]
  | [s0, s1] => [(s0 <<< 2) + (s1 >>> 4)]
  | _ => []

/-- Node-style lenient base64 decoding (`Buffer.from(s, 'base64')`):
characters outside the alphabet — including `=` padding — are skipped, then
sextets are reassembled. -/
def b64Decode (s : String) : List Nat :=
  b64Bytes (s.toList.filterMap b64Index)

/-- `encrypt` of `src/lib/encryption.js`: `null` (here `none`) for empty
input, otherwise `base64(iv ‖ authTag ‖ ciphertext)` under AES-256-GCM. The
plaintext is its UTF-8 byte list; `iv` is the `crypto.randomBytes(16)` value,
passed explicitly; `key` is the cached PBKDF2-derived 32-byte key. -/
def encrypt (key iv plaintext : List Nat) : Option String :=
  if plaintext = [] then none
  else
    let ct := plaintext.zipWith Nat.xor (gcmKeystream key iv plaintext.length)
    some (b64Encode (iv ++ gcmTag key iv ct ++ ct))

/-- `decrypt` of `src/lib/encryption.js`: `null` for empty input; otherwise
decode base64, split IV (16 bytes), tag (16 bytes) and ciphertext, verify the
tag and decrypt; any failure — in the source, the GCM tag-verification throw
of `decipher.final()`, or a malformed tag length — is caught and rethrown as
the single decryption error. -/
def decrypt (key : List Nat) (encryptedData : String) :
    Except String (Option (List Nat)) :=
  if encryptedData = "" then .ok none
  else
    let buffer := b64Decode encryptedData
    let iv := buffer.take 16
    let tag := (buffer.drop 16).take 16
    let ct := buffer.drop 32
    if tag.length ≠ 16 then
      .error "Decryption failed - data may be corrupted or tampered with"
    else if gcmTag key iv ct == tag then
      .ok (some (ct.zipWith Nat.xor (gcmKeystream key iv ct.length)))
    else
      .error "Decryption failed - data may be corrupted or tampered with"

/-- Flip bit `bit` of the character at index `i` of a string: the single-bit
corruption considered by the spec, applied to the base64 blob. -/
def flipCharBit (s : String) (i bit : Nat) : String :=
  String.mk ((s.toList.mapIdx
    (fun j c => if j == i then Char.ofNat (Nat.xor c.toNat (1 <<< bit)) else c)))
theorem length_le_one_no_two_mem {α : Type} {l : List α} {a b : α}
    (ha : a ∈ l) (hb : b ∈ l) (hab : a ≠ b) (hlen : l.length ≤ 1) : False := by
  match l with
  | [] => exact absurd ha (List.not_mem_nil a)
  | [x] =>
    rw [List.mem_singleton] at ha hb
    exact hab (ha.trans hb.symm)
  | x :: y :: t => simp at hlen

theorem logout_always_succeeds (c : Crypto) (db : DB) (cookie : Option String)
    (now now1 now2 : Nat) (h : String) :
    (logoutHandler c db cookie now).1 = okResponse "Logged out successfully" ∧
    revokeRefreshToken (revokeRefreshToken db h now1) h now2 =
      revokeRefreshToken db h now1 ∧
    ((∀ r ∈ db.refreshTokens, ¬ (r.tokenHash = h ∧ r.revoked = false)) →
      revokeRefreshToken db h now1 = db) := by
  refine ⟨rfl, ?_, ?_⟩
  · simp only [revokeRefreshToken, List.map_map]
    congr 1
    apply List.map_congr_left
    intro r _
    by_cases hm : r.tokenHash == h && r.revoked == false
    · simp only [Bool.and_eq_true, beq_iff_eq] at hm
      obtain ⟨h1, h2⟩ := hm
      simp [Function.comp, h1, h2]
    · simp only [Function.comp]
      rw [if_neg hm, if_neg hm]
  · intro hnone
    have hmap : db.refreshTokens.map
        (fun r => if r.tokenHash == h && r.revoked == false then
          { r with revoked := true, revokedAt := some now1 } else r) = db.refreshTokens := by
      have : ∀ r ∈ db.refreshTokens,
          (if r.tokenHash == h && r.revoked == false then
            ({ r with revoked := true, revokedAt := some now1 } : RefreshTokenRow) else r) = r := by
        intro r hr
        have := hnone r hr
        by_cases h1 : r.tokenHash = h
        · by_cases h2 : r.revoked = false
          · exact absurd ⟨h1, h2⟩ this
          · simp at h2
            simp [h1, h2]
        · simp [h1]
      calc db.refreshTokens.map _ = db.refreshTokens.map id := List.map_congr_left this
        _ = db.refreshTokens := List.map_id _
    simp only [revokeRefreshToken, hmap]

/-- Concrete stand-in for the external crypto collaborators, used by the
closed instantiations below: hashing is modelled by tagging the string. -/
def cryptoFix : Crypto where
  hashToken := fun s => s ++ "#"
  argonVerify := fun h p => h == p ++ "#"
  argonHash := fun p => p ++ "#"
  jwtVerify := fun s _ => if s == "RT" then some ⟨"u1", none, "refresh"⟩ else none

/-- Concrete configuration for the closed instantiations. -/
def cfgFix : Config := ⟨"15m", "30d", false, 24⟩

/-- Store with one user and one active refresh token. -/
def dbLogout : DB :=
  ⟨[⟨"u1", "a@x.com", some "Abc12345#", true, "USER"⟩], [], [],
   [⟨"rt1", "u1", "RT#", 100, false, none⟩]⟩

/-- Closed instantiation of `logout_always_succeeds`. -/
theorem logout_always_succeeds_witness :
    (logoutHandler cryptoFix dbLogout (some "RT") 5).1 =
      okResponse "Logged out successfully" ∧
    revokeRefreshToken (revokeRefreshToken dbLogout "RT#" 5) "RT#" 7 =
      revokeRefreshToken dbLogout "RT#" 5 ∧
    revokeRefreshToken dbLogout "nohash" 5 = dbLogout :=
  ⟨(logout_always_succeeds cryptoFix dbLogout (some "RT") 5 5 7 "RT#").1,
   (logout_always_succeeds cryptoFix dbLogout (some "RT") 5 5 7 "RT#").2.1,
   (logout_always_succeeds cryptoFix dbLogout (some "RT") 5 5 7 "nohash").2.2 (by decide)⟩

/-- C10. On every successful email-verification auto-login, login, and
refresh rotation, the stored `RefreshToken` row's `expiresAt` is
`now + 30 days` — a hardcoded constant — and all three handlers' outputs are
unchanged under any modification of the configured `JWT_REFRESH_EXPIRY`. -/
theorem stored_refresh_expiry_hardcoded_30_days
    (c : Crypto) (cfg : Config) (db : DB) (token email password : String)
    (cookie : Option String) (fresh : String) (now : Nat) (fid v : String) :
    ((verifyHandler c cfg db token fresh now fid).1.status = 200 →
      ((verifyHandler c cfg db token fresh now fid).2.refreshTokens.getLast?).map
        (fun r => r.expiresAt) = some (now + 30 * dayMs)) ∧
    ((loginHandler c cfg db email password fresh now fid).1.status = 200 →
      ((loginHandler c cfg db email password fresh now fid).2.refreshTokens.getLast?).map
        (fun r => r.expiresAt) = some (now + 30 * dayMs)) ∧
    ((refreshHandler c cfg db cookie fresh now fid).1.status = 200 →
      ((refreshHandler c cfg db cookie fresh now fid).2.refreshTokens.getLast?).map
        (fun r => r.expiresAt) = some (now + 30 * dayMs)) ∧
    verifyHandler c { cfg with JWT_REFRESH_EXPIRY := v } db token fresh now fid =
      verifyHandler c cfg db token fresh now fid ∧
    loginHandler c { cfg with JWT_REFRESH_EXPIRY := v } db email password fresh now fid =
      loginHandler c cfg db email password fresh now fid ∧
    refreshHandler c { cfg with JWT_REFRESH_EXPIRY := v } db cookie fresh now fid =
      refreshHandler c cfg db cookie fresh now fid := by
  refine ⟨?_, ?_, ?_, rfl, rfl, rfl⟩
  · intro h
    by_cases ht : token = ""
    · simp [verifyHandler, ht] at h
    · rcases hv : verifyEmailToken c db token now with ⟨res, db1⟩
      cases res with
      | error e =>
        rw [verifyHandler] at h
        simp [ht, hv] at h
        cases e <;> simp [errorResponse] at h
      | ok user =>
        rw [verifyHandler]
        simp [ht, hv, storeRefreshToken, List.getLast?_concat]
  · intro h
    rcases ha : authenticateUser c cfg db email password with e | user
    · rw [loginHandler] at h
      simp [ha] at h
      cases e <;> simp [errorResponse] at h
    · rw [loginHandler]
      simp [ha, storeRefreshToken, List.getLast?_concat]
  · intro h
    cases cookie with
    | none => simp [refreshHandler] at h
    | some tok =>
      by_cases htok : tok = ""
      · simp [refreshHandler, htok] at h
      · rcases hj : c.jwtVerify tok now with _ | payload
        · simp [refreshHandler, htok, hj] at h
        · by_cases hty : payload.type = "refresh"
          · rcases hvr : verifyRefreshToken db (c.hashToken tok) now with e | row
            · rw [refreshHandler] at h
              simp [htok, hj, hty, hvr] at h
            · rw [refreshHandler]
              simp [htok, hj, hty, hvr, storeRefreshToken, List.getLast?_concat]
          · simp [refreshHandler, htok, hj, hty] at h

/-- Store for the closed instantiation of the expiry theorem: one unverified
user with a pending email token and an active refresh token, and one
verified password user. -/
def dbC10 : DB :=
  ⟨[⟨"u1", "b@x.com", some "Abc12345#", false, "USER"⟩,
    ⟨"u2", "a@x.com", some "Abc12345#", true, "USER"⟩],
   [⟨"et1", "u1", "EV#", false, 100⟩], [],
   [⟨"rt1", "u1", "RT#", 100, false, none⟩]⟩

/-- Closed instantiation of `stored_refresh_expiry_hardcoded_30_days`: all
three handlers succeed and store `now + 30 days`. -/
theorem stored_refresh_expiry_hardcoded_30_days_witness :
    ((verifyHandler cryptoFix cfgFix dbC10 "EV" "FR" 5 "n1").2.refreshTokens.getLast?).map
      (fun r => r.expiresAt) = some (5 + 30 * dayMs) ∧
    ((loginHandler cryptoFix cfgFix dbC10 "a@x.com" "Abc12345" "FR" 5 "n1").2.refreshTokens.getLast?).map
      (fun r => r.expiresAt) = some (5 + 30 * dayMs) ∧
    ((refreshHandler cryptoFix cfgFix dbC10 (some "RT") "FR" 5 "n1").2.refreshTokens.getLast?).map
      (fun r => r.expiresAt) = some (5 + 30 * dayMs) := by
  have h := stored_refresh_expiry_hardcoded_30_days cryptoFix cfgFix dbC10 "EV"
    "a@x.com" "Abc12345" (some "RT") "FR" 5 "n1" "7d"
  exact ⟨h.1 (by decide), h.2.1 (by decide), h.2.2.1 (by decide)⟩

/-- C7. Login is enumeration-safe on its failure path: an attempt with an
email matching no user (or a password-less OAuth-only account), and an
attempt with an existing password-bearing user but a failing password check,
produce the same `AuthenticationError` with the byte-identical message (and
hence the same 401 status). -/
theorem authenticateUser_enumeration_safe (c : Crypto) (cfg : Config) (db : DB)
    (e1 p1 e2 p2 pwHash : String) (u : User)
    (he1 : e1 ≠ "") (hp1 : p1 ≠ "") (he2 : e2 ≠ "") (hp2 : p2 ≠ "")
    (hmiss : db.users.find? (fun x => x.email == normalizeEmail e1) = none ∨
      ∃ v, db.users.find? (fun x => x.email == normalizeEmail e1) = some v ∧
        v.passwordHash = none)
    (hfound : db.users.find? (fun x => x.email == normalizeEmail e2) = some u)
    (hpw : u.passwordHash = some pwHash)
    (hbad : c.argonVerify pwHash p2 = false) :
    authenticateUser c cfg db e1 p1 =
      .error (.authentication "Invalid email or password") ∧
    authenticateUser c cfg db e2 p2 =
      .error (.authentication "Invalid email or password") := by
  constructor
  · rw [authenticateUser]
    rcases hmiss with hnone | ⟨v, hv, hvpw⟩
    · simp [he1, hp1, hnone]
    · simp [he1, hp1, hv, hvpw]
  · rw [authenticateUser]
    simp [he2, hp2, hfound, hpw, hbad]

/-- Store for the closed login-enumeration instantiation: one password user. -/
def dbC7 : DB :=
  ⟨[⟨"u2", "a@x.com", some "Abc12345#", true, "USER"⟩], [], [], []⟩

/-- Closed instantiation of `authenticateUser_enumeration_safe`: unknown
email vs wrong password at a known email. -/
theorem authenticateUser_enumeration_safe_witness :
    authenticateUser cryptoFix cfgFix dbC7 "ghost@x.com" "Whatever1" =
      .error (.authentication "Invalid email or password") ∧
    authenticateUser cryptoFix cfgFix dbC7 "a@x.com" "WrongPass1" =
      .error (.authentication "Invalid email or password") :=
  authenticateUser_enumeration_safe cryptoFix cfgFix dbC7 "ghost@x.com" "Whatever1"
    "a@x.com" "WrongPass1" "Abc12345#" ⟨"u2", "a@x.com", some "Abc12345#", true, "USER"⟩
    (by decide) (by decide) (by decide) (by decide)
    (Or.inl (by decide)) (by decide) (by decide) (by decide)

/-- C6 (counterexample). For the same nonexistent email, forgot-password
answers with the generic success body while resend-verification fails with a
`NotFoundError` (HTTP 404) — a distinguishing error, refuting that both
flows return the identical generic success response. -/
theorem resendVerification_enumeration_cex :
    resendVerificationEmail cryptoFix cfgFix dbC7 "ghost@x.com" "T" 0 "n1" =
      (.error (.notFound "If an account exists with this email, a verification email has been sent"), dbC7) ∧
    (AppError.notFound "If an account exists with this email, a verification email has been sent").statusCode = 404 ∧
    (requestPasswordReset cryptoFix dbC7 "ghost@x.com" "T" 0 "n1").1 =
      .ok "If an account exists with this email, a password reset link has been sent" :=
  ⟨rfl, rfl, rfl⟩

/-- C6 (amended). Forgot-password is enumeration-safe: for every non-empty
email it returns the one generic success message on every internal branch
(unknown email, OAuth-only user, or password user). Resend-verification is
not: it fails with `NotFoundError` for an unknown email and with
`ConflictError` for an already-verified account. -/
theorem requestPasswordReset_enumeration_safe (c : Crypto) (cfg : Config)
    (db : DB) (email freshToken : String) (now : Nat) (freshId : String)
    (u : User) (hem : email ≠ "") :
    (requestPasswordReset c db email freshToken now freshId).1 =
      .ok "If an account exists with this email, a password reset link has been sent" ∧
    (db.users.find? (fun x => x.email == normalizeEmail email) = none →
      resendVerificationEmail c cfg db email freshToken now freshId =
        (.error (.notFound "If an account exists with this email, a verification email has been sent"), db)) ∧
    (db.users.find? (fun x => x.email == normalizeEmail email) = some u →
      u.emailVerified = true →
      resendVerificationEmail c cfg db email freshToken now freshId =
        (.error (.conflict "Email address is already verified"), db)) := by
  refine ⟨?_, ?_, ?_⟩
  · rw [requestPasswordReset]
    rcases hf : db.users.find? (fun x => x.email == normalizeEmail email) with _ | v
    · simp [hem, hf]
    · rcases hpw : v.passwordHash with _ | pw
      · simp [hem, hf, hpw]
      · simp [hem, hf, hpw]
  · intro hnone
    rw [resendVerificationEmail]
    simp [hem, hnone]
  · intro hsome hver
    rw [resendVerificationEmail]
    simp [hem, hsome, hver]

/-- Closed instantiation of `requestPasswordReset_enumeration_safe`: the
generic success body for an existing password user, the 404 for an unknown
email, and the 409 for a verified account. -/
theorem requestPasswordReset_enumeration_safe_witness :
    (requestPasswordReset cryptoFix dbC7 "a@x.com" "T" 0 "n1").1 =
      .ok "If an account exists with this email, a password reset link has been sent" ∧
    resendVerificationEmail cryptoFix cfgFix dbC7 "ghost2@x.com" "T" 0 "n1" =
      (.error (.notFound "If an account exists with this email, a verification email has been sent"), dbC7) ∧
    resendVerificationEmail cryptoFix cfgFix dbC7 "a@x.com" "T" 0 "n1" =
      (.error (.conflict "Email address is already verified"), dbC7) := by
  have h1 := requestPasswordReset_enumeration_safe cryptoFix cfgFix dbC7 "a@x.com" "T" 0 "n1"
    ⟨"u2", "a@x.com", some "Abc12345#", true, "USER"⟩ (by decide)
  have h2 := requestPasswordReset_enumeration_safe cryptoFix cfgFix dbC7 "ghost2@x.com" "T" 0 "n1"
    ⟨"u2", "a@x.com", some "Abc12345#", true, "USER"⟩ (by decide)
  exact ⟨h1.1, h2.2.1 (by decide), h1.2.2 (by decide) rfl⟩

/-- Number of SUPERUSER rows in the store. -/
def superCount (db : DB) : Nat := db.users.countP (fun u => u.role == "SUPERUSER")

/-- Apply a sequence of `updateUserRole` calls
(target, new role, caller role), keeping only the store effects. -/
def applyRoleOps (db : DB) (ops : List (String × String × String)) : DB :=
  ops.foldl (fun d op => (updateUserRole d op.1 op.2.1 op.2.2).2) db

/-- `updateUserRole` never changes user ids. -/
theorem updateUserRole_ids (db : DB) (t r cur : String) :
    (updateUserRole db t r cur).2.users.map (fun u => u.id) =
      db.users.map (fun u => u.id) := by
  rw [updateUserRole]
  repeat' split
  all_goals simp [List.map_map]
  intro u _
  by_cases hu : u.id = t
  · simp [hu]
  · simp [hu]

/-- One `updateUserRole` call preserves "at most one SUPERUSER" (given unique
user ids). -/
theorem updateUserRole_superCount (db : DB) (t r cur : String)
    (hnd : (db.users.map (fun u => u.id)).Nodup)
    (hle : superCount db ≤ 1) : superCount (updateUserRole db t r cur).2 ≤ 1 := by
  rw [updateUserRole]
  repeat' split
  all_goals simp only [superCount] at *
  all_goals try exact hle
  rename_i hfind hrole hguard
  by_cases hr : r = "SUPERUSER"
  · have hnone : db.users.find? (fun u => u.role == "SUPERUSER" && u.id != t) = none := by
      rcases ho : db.users.find? (fun u => u.role == "SUPERUSER" && u.id != t) with _ | w
      · exact ho
      · exact absurd ⟨hr, by rw [ho]; rfl⟩ hguard
    have hforall := List.find?_eq_none.mp hnone
    have hstep : (db.users.map (fun u =>
        if u.id == t then { u with role := r } else u)).countP
          (fun u => u.role == "SUPERUSER") ≤
        db.users.countP (fun u => u.id == t) := by
      rw [List.countP_map]
      apply List.countP_mono_left
      intro u hu hsup
      simp only [Function.comp] at hsup
      by_cases hid : u.id == t
      · exact hid
      · exfalso
        by_cases hus : u.role == "SUPERUSER"
        · exact hforall u hu
            (by simp only [Bool.and_eq_true, bne_iff_ne]; exact ⟨hus, by simpa using hid⟩)
        · rw [if_neg (by simpa using hid)] at hsup
          exact absurd hsup (by simpa using hus)
    have hcnt : db.users.countP (fun u => u.id == t) ≤ 1 := by
      have h1 : db.users.countP (fun u => u.id == t) =
          (db.users.map (fun u => u.id)).count t := by
        rw [List.count, List.countP_map]
        rfl
      rw [h1]
      exact List.nodup_iff_count_le_one.mp hnd t
    exact le_trans hstep hcnt
  · have : (db.users.map (fun u =>
        if u.id == t then { u with role := r } else u)).countP
          (fun u => u.role == "SUPERUSER") ≤
        db.users.countP (fun u => u.role == "SUPERUSER") := by
      rw [List.countP_map]
      apply List.countP_mono_left
      intro u hu hsup
      simp only [Function.comp] at hsup
      by_cases hid : u.id == t
      · rw [if_pos hid] at hsup
        simp only [beq_iff_eq] at hsup
        exact absurd hsup hr
      · rw [if_neg (by simpa using hid)] at hsup
        exact hsup
    exact le_trans this hle

/-- C8. The at-most-one-SUPERUSER invariant: when another user already holds
SUPERUSER, assigning SUPERUSER to a target fails with a `ConflictError` and
leaves the store unchanged; and from any store with unique ids and at most
one SUPERUSER, no sequence of `updateUserRole` calls reaches two. -/
theorem updateUserRole_single_superuser (db : DB) (tid cur : String)
    (t other : User) (ops : List (String × String × String)) :
    (tid ≠ "" → cur = "SUPERUSER" →
      db.users.find? (fun u => u.id == tid) = some t →
      other ∈ db.users → other.role = "SUPERUSER" → other.id ≠ tid →
      (updateUserRole db tid "SUPERUSER" cur).2 = db ∧
        ∃ m, (updateUserRole db tid "SUPERUSER" cur).1 = .error (.conflict m)) ∧
    ((db.users.map (fun u => u.id)).Nodup → superCount db ≤ 1 →
      superCount (applyRoleOps db ops) ≤ 1) := by
  constructor
  · intro htid hcur hfind hmem hrole hne
    rw [updateUserRole]
    have hsome : (db.users.find?
        (fun u => u.role == "SUPERUSER" && u.id != tid)).isSome := by
      apply List.find?_isSome.mpr
      exact ⟨other, hmem, by simp [hrole, hne]⟩
    by_cases ht : t.role = "SUPERUSER"
    · simp [htid, hcur, hfind, ht]
    · simp [htid, hcur, hfind, ht, hsome]
  · intro hnd hle
    induction ops generalizing db with
    | nil => exact hle
    | cons op ops ih =>
      have hstep : applyRoleOps db (op :: ops) =
          applyRoleOps (updateUserRole db op.1 op.2.1 op.2.2).2 ops := rfl
      rw [hstep]
      apply ih
      · rw [updateUserRole_ids]; exact hnd
      · exact updateUserRole_superCount db op.1 op.2.1 op.2.2 hnd hle

/-- Store with one SUPERUSER (`u1`) and one regular user (`u2`). -/
def dbC8 : DB :=
  ⟨[⟨"u1", "root@x.com", some "Abc12345#", true, "SUPERUSER"⟩,
    ⟨"u2", "a@x.com", some "Abc12345#", true, "USER"⟩], [], [], []⟩

/-- Closed instantiation of `updateUserRole_single_superuser`: promoting `u2`
while `u1` is SUPERUSER conflicts and changes nothing, and a call sequence
keeps the SUPERUSER count at most one. -/
theorem updateUserRole_single_superuser_witness :
    ((updateUserRole dbC8 "u2" "SUPERUSER" "SUPERUSER").2 = dbC8 ∧
      ∃ m, (updateUserRole dbC8 "u2" "SUPERUSER" "SUPERUSER").1 =
        .error (.conflict m)) ∧
    superCount (applyRoleOps dbC8
      [("u2", "ADMIN", "SUPERUSER"), ("u2", "SUPERUSER", "SUPERUSER")]) ≤ 1 := by
  have h := updateUserRole_single_superuser dbC8 "u2" "SUPERUSER"
    ⟨"u2", "a@x.com", some "Abc12345#", true, "USER"⟩
    ⟨"u1", "root@x.com", some "Abc12345#", true, "SUPERUSER"⟩
    [("u2", "ADMIN", "SUPERUSER"), ("u2", "SUPERUSER", "SUPERUSER")]
  exact ⟨h.1 (by decide) rfl (by decide) (by decide) rfl (by decide),
    h.2 (by decide) (by decide)⟩

/-- C3. An email-verification token is one-shot: once `verifyEmailToken`
consumes it, any later call with the same token — at any clock instant, in
particular before the expiry — answers `NotFoundError`, provided the store
held at most one unused row for that token hash (token hashes are unique in
practice, being HMACs of 256-bit random values). -/
theorem verifyEmailToken_one_shot (c : Crypto) (db : DB) (token : String)
    (now now2 : Nat) (user : UserView) (db1 : DB)
    (hsuc : verifyEmailToken c db token now = (.ok user, db1))
    (huniq : (db.emailTokens.filter
      (fun r => r.tokenHash == c.hashToken token && r.used == false)).length ≤ 1) :
    (verifyEmailToken c db1 token now2).1 =
      .error (.notFound "Invalid or expired verification token") := by
  by_cases htok : token = ""
  · rw [verifyEmailToken] at hsuc
    simp [htok] at hsuc
  · simp only [verifyEmailToken, htok, if_false] at hsuc
    split at hsuc
    · simp at hsuc
    · rename_i row hfind
      split at hsuc
      · rename_i u0 hu
        simp only [Prod.mk.injEq] at hsuc
        obtain ⟨_, hdb1⟩ := hsuc
        have hprops := List.find?_some hfind
        have hmemrow := List.mem_of_find?_eq_some hfind
        simp only [Bool.and_eq_true, beq_iff_eq, decide_eq_true_eq] at hprops
        obtain ⟨⟨hhash, hunused⟩, _hexp⟩ := hprops
        simp only [verifyEmailToken, htok, if_false]
        split
        · rfl
        · rename_i r2 hfind2
          exfalso
          have hmem2 := List.mem_of_find?_eq_some hfind2
          have hpred2 := List.find?_some hfind2
          rw [← hdb1] at hmem2
          simp only [List.mem_map] at hmem2
          obtain ⟨r, hr, hfr⟩ := hmem2
          by_cases hid : r.id == row.id
          · rw [if_pos hid] at hfr
            rw [← hfr] at hpred2
            simp at hpred2
          · rw [if_neg hid] at hfr
            subst hfr
            simp only [Bool.and_eq_true, beq_iff_eq, decide_eq_true_eq] at hpred2
            obtain ⟨⟨hxhash, hxunused⟩, _⟩ := hpred2
            have hrfil : r ∈ db.emailTokens.filter
                (fun r => r.tokenHash == c.hashToken token && r.used == false) :=
              List.mem_filter.mpr ⟨hr, by simp [hxhash, hxunused]⟩
            have hrowfil : row ∈ db.emailTokens.filter
                (fun r => r.tokenHash == c.hashToken token && r.used == false) :=
              List.mem_filter.mpr ⟨hmemrow, by simp [hhash, hunused]⟩
            have hne : r ≠ row := by
              intro he
              rw [he] at hid
              simp at hid
            exact length_le_one_no_two_mem hrfil hrowfil hne huniq
      · simp at hsuc

/-- Store with one unverified user and one pending email token. -/
def dbC3 : DB :=
  ⟨[⟨"u1", "b@x.com", some "Abc12345#", false, "USER"⟩],
   [⟨"et1", "u1", "EV#", false, 100⟩], [], []⟩

/-- `dbC3` after the token `EV` has been consumed. -/
def dbC3v : DB :=
  ⟨[⟨"u1", "b@x.com", some "Abc12345#", true, "USER"⟩],
   [⟨"et1", "u1", "EV#", true, 100⟩], [], []⟩

/-- Closed instantiation of `verifyEmailToken_one_shot`: the second
consumption of `EV` fails although the clock (7) is before the expiry (100). -/
theorem verifyEmailToken_one_shot_witness :
    (verifyEmailToken cryptoFix dbC3v "EV" 7).1 =
      .error (.notFound "Invalid or expired verification token") :=
  verifyEmailToken_one_shot cryptoFix dbC3 "EV" 5 7
    ⟨"u1", "b@x.com", true, "USER"⟩ dbC3v rfl (by decide)

/-- Store for the password-reset scenario: one password user with a valid
unused reset token and one active refresh token. -/
def dbC2 : DB :=
  ⟨[⟨"u1", "a@x.com", some "Old#", true, "USER"⟩], [],
   [⟨"pr1", "u1", "R#", false, 100⟩],
   [⟨"rt1", "u1", "RT#", 100, false, none⟩]⟩

/-- `dbC2` after only the `prisma.$transaction` block of `resetPassword` has
committed (token consumed, password updated) and before the separate
refresh-token `updateMany` has run. -/
def dbC2mid : DB :=
  ⟨[⟨"u1", "a@x.com", some "Newpass1#", true, "USER"⟩], [],
   [⟨"pr1", "u1", "R#", true, 100⟩],
   [⟨"rt1", "u1", "RT#", 100, false, none⟩]⟩

/-- C2 (counterexample). `resetPassword` factors as the token-and-password
transaction followed by a separate, non-transactional refresh-token
revocation: after the transactional unit alone has committed, the reset
token is consumed and the password is changed while the user's refresh token
is still unrevoked — so the three writes are not one transaction. -/
theorem resetPassword_not_one_transaction_cex :
    resetPassword cryptoFix dbC2 "R" "Newpass1" 5 =
      (.ok "Password has been reset successfully. Please log in with your new password.",
        revokeAllUserRefreshTokens (resetPasswordTxn dbC2 "pr1" "u1" "Newpass1#") "u1" 5) ∧
    resetPasswordTxn dbC2 "pr1" "u1" "Newpass1#" = dbC2mid ∧
    dbC2mid.resetTokens = [⟨"pr1", "u1", "R#", true, 100⟩] ∧
    dbC2mid.users = [⟨"u1", "a@x.com", some "Newpass1#", true, "USER"⟩] ∧
    dbC2mid.refreshTokens = [⟨"rt1", "u1", "RT#", 100, false, none⟩] :=
  ⟨rfl, rfl, rfl, rfl, rfl⟩

/-- C2 (amended). When `resetPassword` runs to completion, its store effect
is the transactional token-consumption-and-password-update followed by the
separate revocation `updateMany`; in the final store the matched token is
used, the user's password hash is replaced, and every refresh token of that
user is revoked — but the revocation is a second write issued after the
transaction, not part of it. -/
theorem resetPassword_completion_revokes_all (c : Crypto) (db : DB)
    (token newPassword : String) (now : Nat) (msg : String) (db2 : DB)
    (hsuc : resetPassword c db token newPassword now = (.ok msg, db2)) :
    ∃ row, verifyPasswordResetToken c db token now = .ok row ∧
      db2 = revokeAllUserRefreshTokens
        (resetPasswordTxn db row.id row.userId (c.argonHash newPassword)) row.userId now ∧
      (∀ r ∈ db2.refreshTokens, r.userId = row.userId → r.revoked = true) ∧
      (∀ t ∈ db2.resetTokens, t.id = row.id → t.used = true) ∧
      (∀ u ∈ db2.users, u.id = row.userId → u.passwordHash =
        some (c.argonHash newPassword)) := by
  rw [resetPassword] at hsuc
  split at hsuc
  · simp at hsuc
  · split at hsuc
    · simp at hsuc
    · split at hsuc
      · simp at hsuc
      · rename_i row hrow
        simp only [Prod.mk.injEq] at hsuc
        obtain ⟨_, hdb2⟩ := hsuc
        refine ⟨row, hrow, hdb2.symm, ?_, ?_, ?_⟩
        · intro r hr hrid
          rw [← hdb2] at hr
          simp only [revokeAllUserRefreshTokens, resetPasswordTxn, List.mem_map] at hr
          obtain ⟨r0, _, hfr⟩ := hr
          by_cases hc : r0.userId == row.userId && r0.revoked == false
          · rw [if_pos hc] at hfr
            rw [← hfr]
          · rw [if_neg hc] at hfr
            subst hfr
            simp only [Bool.and_eq_true, beq_iff_eq] at hc
            rcases Bool.eq_false_or_eq_true r0.revoked with hrev | hrev
            · exact hrev
            · exact absurd ⟨hrid, hrev⟩ hc
        · intro t ht htid
          rw [← hdb2] at ht
          simp only [revokeAllUserRefreshTokens, resetPasswordTxn, List.mem_map] at ht
          obtain ⟨t0, _, hft⟩ := ht
          by_cases hc : t0.id == row.id
          · rw [if_pos hc] at hft
            rw [← hft]
          · rw [if_neg hc] at hft
            subst hft
            exact absurd htid (by simpa using hc)
        · intro u hu huid
          rw [← hdb2] at hu
          simp only [revokeAllUserRefreshTokens, resetPasswordTxn, List.mem_map] at hu
          obtain ⟨u0, _, hfu⟩ := hu
          by_cases hc : u0.id == row.userId
          · rw [if_pos hc] at hfu
            rw [← hfu]
          · rw [if_neg hc] at hfu
            subst hfu
            exact absurd huid (by simpa using hc)

/-- `dbC2` after `resetPassword` has fully completed. -/
def dbC2fin : DB :=
  ⟨[⟨"u1", "a@x.com", some "Newpass1#", true, "USER"⟩], [],
   [⟨"pr1", "u1", "R#", true, 100⟩],
   [⟨"rt1", "u1", "RT#", 100, true, some 5⟩]⟩

/-- Closed instantiation of `resetPassword_completion_revokes_all`. -/
theorem resetPassword_completion_revokes_all_witness :
    ∃ row, verifyPasswordResetToken cryptoFix dbC2 "R" 5 = .ok row ∧
      dbC2fin = revokeAllUserRefreshTokens
        (resetPasswordTxn dbC2 row.id row.userId (cryptoFix.argonHash "Newpass1"))
        row.userId 5 ∧
      (∀ r ∈ dbC2fin.refreshTokens, r.userId = row.userId → r.revoked = true) ∧
      (∀ t ∈ dbC2fin.resetTokens, t.id = row.id → t.used = true) ∧
      (∀ u ∈ dbC2fin.users, u.id = row.userId → u.passwordHash =
        some (cryptoFix.argonHash "Newpass1")) :=
  resetPassword_completion_revokes_all cryptoFix dbC2 "R" "Newpass1" 5
    "Password has been reset successfully. Please log in with your new password."
    dbC2fin rfl

/-- C1. Refresh rotation is single-use: when the refresh handler succeeds on
presented token `R`, the store it leaves behind is exactly "revoke every
active row holding hash(R), stamping `revokedAt = now`, then append the
replacement row" — the revocation is applied before the replacement is
stored — and a second call presenting the same `R` against that store fails
with the 401 `AuthenticationError`, at any later instant and whatever fresh
token it would have issued. (The fresh token's hash differs from hash(R):
`createRefreshToken` signs a fresh payload.) -/
theorem refresh_rotation_single_use (c : Crypto) (cfg : Config) (db : DB)
    (R fresh1 fresh2 : String) (now now2 : Nat) (fid1 fid2 : String)
    (hsuc : (refreshHandler c cfg db (some R) fresh1 now fid1).1 =
      okResponse "Token refreshed successfully")
    (hfresh : c.hashToken fresh1 ≠ c.hashToken R) :
    (∃ row, verifyRefreshToken db (c.hashToken R) now = .ok row ∧
      (refreshHandler c cfg db (some R) fresh1 now fid1).2 =
        storeRefreshToken (revokeRefreshToken db (c.hashToken R) now) fid1
          row.userId (c.hashToken fresh1) (now + 30 * dayMs)) ∧
    (∀ r ∈ db.refreshTokens, r.tokenHash = c.hashToken R → r.revoked = false →
      ({ r with revoked := true, revokedAt := some now } : RefreshTokenRow) ∈
        (refreshHandler c cfg db (some R) fresh1 now fid1).2.refreshTokens) ∧
    (∀ r ∈ (refreshHandler c cfg db (some R) fresh1 now fid1).2.refreshTokens,
      r.tokenHash = c.hashToken R → r.revoked = true) ∧
    (refreshHandler c cfg (refreshHandler c cfg db (some R) fresh1 now fid1).2
        (some R) fresh2 now2 fid2).1 =
      ⟨401, some "AuthenticationError", "Invalid or expired refresh token"⟩ := by
  by_cases hR : R = ""
  · simp [refreshHandler, hR, okResponse] at hsuc
  rcases hj : c.jwtVerify R now with _ | payload
  · simp [refreshHandler, hR, hj, okResponse] at hsuc
  by_cases hty : payload.type = "refresh"
  case neg => simp [refreshHandler, hR, hj, hty, okResponse] at hsuc
  rcases hv : verifyRefreshToken db (c.hashToken R) now with e | row
  · simp [refreshHandler, hR, hj, hty, hv, okResponse] at hsuc
  have hpair : refreshHandler c cfg db (some R) fresh1 now fid1 =
      (okResponse "Token refreshed successfully",
        storeRefreshToken (revokeRefreshToken db (c.hashToken R) now) fid1
          row.userId (c.hashToken fresh1) (now + 30 * dayMs)) := by
    simp [refreshHandler, hR, hj, hty, hv]
  rw [hpair]
  have hall : ∀ r ∈ (storeRefreshToken (revokeRefreshToken db (c.hashToken R) now) fid1
      row.userId (c.hashToken fresh1) (now + 30 * dayMs)).refreshTokens,
      r.tokenHash = c.hashToken R → r.revoked = true := by
    intro r hr hrh
    simp only [storeRefreshToken, revokeRefreshToken, List.mem_append,
      List.mem_map, List.mem_singleton] at hr
    rcases hr with ⟨r0, _, hfr⟩ | hnew
    · by_cases hc : r0.tokenHash == c.hashToken R && r0.revoked == false
      · rw [if_pos hc] at hfr
        rw [← hfr]
      · rw [if_neg hc] at hfr
        subst hfr
        simp only [Bool.and_eq_true, beq_iff_eq] at hc
        rcases Bool.eq_false_or_eq_true r0.revoked with hrev | hrev
        · exact hrev
        · exact absurd ⟨hrh, hrev⟩ hc
    · subst hnew
      exact absurd hrh hfresh
  refine ⟨⟨row, rfl, rfl⟩, ?_, hall, ?_⟩
  · intro r hr hrh hrv
    simp only [storeRefreshToken, revokeRefreshToken, List.mem_append, List.mem_map]
    left
    refine ⟨r, hr, ?_⟩
    rw [if_pos (by simp [hrh, hrv])]
  · by_cases hR2 : R = ""
    · exact absurd hR2 hR
    rcases hj2 : c.jwtVerify R now2 with _ | p2
    · simp [refreshHandler, hR2, hj2]
    by_cases hty2 : p2.type = "refresh"
    case neg => simp [refreshHandler, hR2, hj2, hty2]
    rcases hv2 : verifyRefreshToken (storeRefreshToken
        (revokeRefreshToken db (c.hashToken R) now) fid1 row.userId
        (c.hashToken fresh1) (now + 30 * dayMs)) (c.hashToken R) now2 with e2 | row2
    · simp [refreshHandler, hR2, hj2, hty2, hv2]
    · exfalso
      rw [verifyRefreshToken] at hv2
      rcases hf2 : (storeRefreshToken (revokeRefreshToken db (c.hashToken R) now) fid1
          row.userId (c.hashToken fresh1) (now + 30 * dayMs)).refreshTokens.find?
          (fun r => r.tokenHash == c.hashToken R && r.revoked == false &&
            decide (now2 < r.expiresAt)) with _ | rr
      · rw [hf2] at hv2
        simp at hv2
      · have hprops := List.find?_some hf2
        have hmem := List.mem_of_find?_eq_some hf2
        simp only [Bool.and_eq_true, beq_iff_eq, decide_eq_true_eq] at hprops
        obtain ⟨⟨hh2, hrv2⟩, _⟩ := hprops
        have := hall rr hmem hh2
        rw [this] at hrv2
        exact Bool.true_eq_false.mp hrv2

/-- Closed instantiation of `refresh_rotation_single_use`: rotating `RT`
once succeeds and revokes its row; presenting `RT` again answers 401. -/
theorem refresh_rotation_single_use_witness :
    (∀ r ∈ (refreshHandler cryptoFix cfgFix dbLogout (some "RT") "FR" 5 "n1").2.refreshTokens,
      r.tokenHash = cryptoFix.hashToken "RT" → r.revoked = true) ∧
    (refreshHandler cryptoFix cfgFix
        (refreshHandler cryptoFix cfgFix dbLogout (some "RT") "FR" 5 "n1").2
        (some "RT") "FR2" 9 "n2").1 =
      ⟨401, some "AuthenticationError", "Invalid or expired refresh token"⟩ := by
  have h := refresh_rotation_single_use cryptoFix cfgFix dbLogout "RT" "FR" "FR2"
    5 9 "n1" "n2" (by decide) (by decide)
  exact ⟨h.2.2.1, h.2.2.2⟩

/-- XOR of two bytes is a byte. -/
theorem xor256 {a b : Nat} (ha : a < 256) (hb : b < 256) : Nat.xor a b < 256 := by
  have h := Nat.xor_lt_two_pow (n := 8) (by simpa using ha) (by simpa using hb)
  simpa using h

/-- `getD` with default 0 over a byte list yields a byte. -/
theorem getD_lt {l : List Nat} (h : ∀ a ∈ l, a < 256) (i : Nat) : l.getD i 0 < 256 := by
  rcases hq : l[i]? with _ | a
  · simp [List.getD, hq]
  · have hmem : a ∈ l := by
      have hq2 : l.get? i = some a := by rw [List.get?_eq_getElem?]; exact hq
      exact List.get?_mem hq2
    simp [List.getD, hq, h a hmem]

/-- The S-box yields bytes. -/
theorem sbox_lt (b : Nat) : sbox b < 256 := Nat.mod_lt _ (by omega)

theorem xtime_lt {b : Nat} (hb : b < 256) : xtime b < 256 := by
  rw [xtime]
  split
  · omega
  · exact xor256 (by omega) (by omega)

theorem mul3_lt {b : Nat} (hb : b < 256) : mul3 b < 256 :=
  xor256 (xtime_lt hb) hb

/-- Bytewise XOR of two byte lists yields bytes. -/
theorem zipWith_xor_lt {l1 l2 : List Nat} (h1 : ∀ a ∈ l1, a < 256)
    (h2 : ∀ a ∈ l2, a < 256) : ∀ x ∈ l1.zipWith Nat.xor l2, x < 256 := by
  induction l1 generalizing l2 with
  | nil => simp
  | cons a t ih =>
    cases l2 with
    | nil => simp
    | cons b t2 =>
      intro x hx
      simp only [List.zipWith_cons_cons, List.mem_cons] at hx
      rcases hx with hx | hx
      · subst hx
        exact xor256 (h1 a (by simp)) (h2 b (by simp))
      · exact ih (fun y hy => h1 y (by simp [hy])) (fun y hy => h2 y (by simp [hy])) x hx

theorem subBytes_lt (s : List Nat) : ∀ x ∈ subBytes s, x < 256 := by
  intro x hx
  simp only [subBytes, List.mem_map] at hx
  obtain ⟨a, _, ha⟩ := hx
  rw [← ha]
  exact sbox_lt a

theorem shiftRows_lt {s : List Nat} (h : ∀ a ∈ s, a < 256) :
    ∀ x ∈ shiftRows s, x < 256 := by
  intro x hx
  simp only [shiftRows, List.mem_map] at hx
  obtain ⟨i, _, hi⟩ := hx
  rw [← hi]
  exact getD_lt h _

theorem mixColumn_lt {a0 a1 a2 a3 : Nat} (h0 : a0 < 256) (h1 : a1 < 256)
    (h2 : a2 < 256) (h3 : a3 < 256) : ∀ x ∈ mixColumn a0 a1 a2 a3, x < 256 := by
  intro x hx
  simp only [mixColumn, List.mem_cons, List.not_mem_nil, or_false] at hx
  rcases hx with hx | hx | hx | hx <;> subst hx
  · exact xor256 (xor256 (xtime_lt h0) (mul3_lt h1)) (xor256 h2 h3)
  · exact xor256 (xor256 h0 (xtime_lt h1)) (xor256 (mul3_lt h2) h3)
  · exact xor256 (xor256 h0 h1) (xor256 (xtime_lt h2) (mul3_lt h3))
  · exact xor256 (xor256 (mul3_lt h0) h1) (xor256 h2 (xtime_lt h3))

theorem mixColumns_lt {s : List Nat} (h : ∀ a ∈ s, a < 256) :
    ∀ x ∈ mixColumns s, x < 256 := by
  intro x hx
  simp only [mixColumns, List.mem_flatMap, List.mem_range] at hx
  obtain ⟨c, _, hc⟩ := hx
  exact mixColumn_lt (getD_lt h _) (getD_lt h _) (getD_lt h _) (getD_lt h _) x hc

theorem roundKey_lt (w : List Nat) (n : Nat) : ∀ x ∈ roundKey w n, x < 256 := by
  intro x hx
  simp only [roundKey, List.mem_map] at hx
  obtain ⟨i, _, hi⟩ := hx
  rw [← hi]
  exact Nat.mod_lt _ (by omega)

theorem shiftRows_length (s : List Nat) : (shiftRows s).length = 16 := by
  simp [shiftRows]

theorem roundKey_length (w : List Nat) (n : Nat) : (roundKey w n).length = 16 := by
  simp [roundKey]

/-- An AES block is always 16 bytes. -/
theorem aes256Block_length (key block : List Nat) :
    (aes256Block key block).length = 16 := by
  simp [aes256Block, addRoundKey, List.length_zipWith, shiftRows_length, roundKey_length]

/-- AES output entries are bytes (the last round re-enters the S-box, so this
holds for every input). -/
theorem aes256Block_lt (key block : List Nat) :
    ∀ x ∈ aes256Block key block, x < 256 := by
  intro x hx
  simp only [aes256Block, addRoundKey] at hx
  exact zipWith_xor_lt (shiftRows_lt (subBytes_lt _)) (roundKey_lt _ _) x hx

theorem natToBytes16_length (n : Nat) : (natToBytes16 n).length = 16 := by
  simp [natToBytes16]

theorem natToBytes16_lt (n : Nat) : ∀ x ∈ natToBytes16 n, x < 256 := by
  intro x hx
  simp only [natToBytes16, List.mem_map] at hx
  obtain ⟨i, _, hi⟩ := hx
  rw [← hi]
  exact Nat.mod_lt _ (by omega)

theorem keystreamFlatten_length (key : List Nat) (j0 m : Nat) :
    (((List.range m).map
      (fun i => aes256Block key (natToBytes16 (addCtr j0 (1 + i))))).flatten).length =
    16 * m := by
  induction m with
  | zero => simp
  | succ k ih =>
    rw [List.range_succ, List.map_append, List.flatten_append, List.length_append, ih]
    simp [aes256Block_length]
    omega

/-- The CTR keystream has exactly the requested length. -/
theorem gcmKeystream_length (key iv : List Nat) (n : Nat) :
    (gcmKeystream key iv n).length = n := by
  rw [gcmKeystream, List.length_take, keystreamFlatten_length]
  omega

/-- CTR keystream entries are bytes. -/
theorem gcmKeystream_lt (key iv : List Nat) (n : Nat) :
    ∀ x ∈ gcmKeystream key iv n, x < 256 := by
  intro x hx
  rw [gcmKeystream] at hx
  have hx2 := List.mem_of_mem_take hx
  simp only [List.mem_flatten, List.mem_map] at hx2
  obtain ⟨s, ⟨i, _, hs⟩, hxs⟩ := hx2
  rw [← hs] at hxs
  exact aes256Block_lt _ _ x hxs

/-- XOR-ing twice with the same (long enough) keystream restores the input. -/
theorem zipWith_xor_cancel {a b : List Nat} (h : a.length ≤ b.length) :
    (a.zipWith Nat.xor b).zipWith Nat.xor b = a := by
  induction a generalizing b with
  | nil => simp
  | cons x t ih =>
    cases b with
    | nil => simp at h
    | cons y t2 =>
      simp only [List.zipWith_cons_cons, List.cons.injEq]
      exact ⟨Nat.xor_cancel_right y x, ih (by simpa using h)⟩

/-- The base64 alphabet decodes back to the encoded sextet. -/
theorem b64Index_b64Char : ∀ i < 64, b64Index (b64Char i) = some i := by decide

/-- Padding characters are skipped by the decoder. -/
theorem b64Index_pad : b64Index '=' = none := by decide

/-- Lenient base64 decoding inverts encoding on byte lists. -/
theorem b64_roundtrip : ∀ (l : List Nat), (∀ b ∈ l, b < 256) →
    b64Bytes ((b64EncodeChars l).filterMap b64Index) = l
  | [], _ => rfl
  | [b0], h => by
    have hb0 : b0 < 256 := h b0 (by simp)
    have e0 := b64Index_b64Char (b0 >>> 2)
      (by rw [Nat.shiftRight_eq_div_pow]; norm_num; omega)
    have e1 := b64Index_b64Char ((b0 % 4) <<< 4)
      (by rw [Nat.shiftLeft_eq]; norm_num; omega)
    simp only [b64EncodeChars, List.filterMap_cons, e0, e1, b64Index_pad,
      List.filterMap_nil, b64Bytes]
    rw [Nat.shiftRight_eq_div_pow, Nat.shiftLeft_eq, Nat.shiftLeft_eq,
      Nat.shiftRight_eq_div_pow]
    norm_num
    omega
  | [b0, b1], h => by
    have hb0 : b0 < 256 := h b0 (by simp)
    have hb1 : b1 < 256 := h b1 (by simp)
    have e0 := b64Index_b64Char (b0 >>> 2)
      (by rw [Nat.shiftRight_eq_div_pow]; norm_num; omega)
    have e1 := b64Index_b64Char (((b0 % 4) <<< 4) + (b1 >>> 4))
      (by rw [Nat.shiftLeft_eq, Nat.shiftRight_eq_div_pow]; norm_num; omega)
    have e2 := b64Index_b64Char ((b1 % 16) <<< 2)
      (by rw [Nat.shiftLeft_eq]; norm_num; omega)
    simp only [b64EncodeChars, List.filterMap_cons, e0, e1, e2, b64Index_pad,
      List.filterMap_nil, b64Bytes]
    simp only [Nat.shiftRight_eq_div_pow, Nat.shiftLeft_eq]
    norm_num
    omega
  | (b0 :: b1 :: b2 :: rest), h => by
    have hb0 : b0 < 256 := h b0 (by simp)
    have hb1 : b1 < 256 := h b1 (by simp)
    have hb2 : b2 < 256 := h b2 (by simp)
    have e0 := b64Index_b64Char (b0 >>> 2)
      (by rw [Nat.shiftRight_eq_div_pow]; norm_num; omega)
    have e1 := b64Index_b64Char (((b0 % 4) <<< 4) + (b1 >>> 4))
      (by rw [Nat.shiftLeft_eq, Nat.shiftRight_eq_div_pow]; norm_num; omega)
    have e2 := b64Index_b64Char (((b1 % 16) <<< 2) + (b2 >>> 6))
      (by rw [Nat.shiftLeft_eq, Nat.shiftRight_eq_div_pow]; norm_num; omega)
    have e3 := b64Index_b64Char (b2 % 64) (by omega)
    have ih := b64_roundtrip rest (fun b hb => h b (by simp [hb]))
    simp only [b64EncodeChars, List.filterMap_cons, e0, e1, e2, e3, b64Bytes, ih,
      List.cons.injEq, and_true]
    refine ⟨?_, ?_, ?_⟩
    all_goals
      simp only [Nat.shiftRight_eq_div_pow, Nat.shiftLeft_eq]
      norm_num
      omega

/-- Base64 encoding of a nonempty byte list is a nonempty string. -/
theorem b64EncodeChars_ne_nil : ∀ (l : List Nat), l ≠ [] → b64EncodeChars l ≠ []
  | [], h => absurd rfl h
  | [_], _ => by simp [b64EncodeChars]
  | [_, _], _ => by simp [b64EncodeChars]
  | (_ :: _ :: _ :: _), _ => by simp [b64EncodeChars]

/-- The GCM tag is 16 bytes. -/
theorem gcmTag_length (key iv ct : List Nat) : (gcmTag key iv ct).length = 16 := by
  rw [gcmTag]
  exact natToBytes16_length _

/-- GCM tag entries are bytes. -/
theorem gcmTag_lt (key iv ct : List Nat) : ∀ x ∈ gcmTag key iv ct, x < 256 := by
  rw [gcmTag]
  exact natToBytes16_lt _

/-- C4. Roundtrip: for every non-empty plaintext (as its UTF-8 bytes), every
16-byte random IV and every derived key, decrypting an `encrypt` blob with
the same key returns exactly the original plaintext. -/
theorem encrypt_decrypt_roundtrip (key iv plaintext : List Nat)
    (hpt : plaintext ≠ []) (hbytes : ∀ b ∈ plaintext, b < 256)
    (hiv16 : iv.length = 16) (hivb : ∀ b ∈ iv, b < 256) :
    ∃ blob, encrypt key iv plaintext = some blob ∧
      decrypt key blob = .ok (some plaintext) := by
  have hkslt := gcmKeystream_lt key iv plaintext.length
  have hkslen := gcmKeystream_length key iv plaintext.length
  refine ⟨b64Encode (iv ++ gcmTag key iv (plaintext.zipWith Nat.xor
    (gcmKeystream key iv plaintext.length)) ++ plaintext.zipWith Nat.xor
    (gcmKeystream key iv plaintext.length)), ?_, ?_⟩
  · rw [encrypt, if_neg hpt]
  · generalize hc : plaintext.zipWith Nat.xor (gcmKeystream key iv plaintext.length) = ct
    have hctlen : ct.length = plaintext.length := by
      rw [← hc, List.length_zipWith, hkslen, Nat.min_self]
    have hctb : ∀ b ∈ ct, b < 256 := by
      rw [← hc]
      exact zipWith_xor_lt hbytes hkslt
    have hallb : ∀ b ∈ iv ++ gcmTag key iv ct ++ ct, b < 256 := by
      intro b hb
      simp only [List.mem_append] at hb
      rcases hb with (hb | hb) | hb
      · exact hivb b hb
      · exact gcmTag_lt key iv ct b hb
      · exact hctb b hb
    have hne : b64Encode (iv ++ gcmTag key iv ct ++ ct) ≠ "" := by
      rw [b64Encode]
      intro he
      have : b64EncodeChars (iv ++ gcmTag key iv ct ++ ct) = [] := by
        have := congrArg String.toList he
        simpa using this
      exact b64EncodeChars_ne_nil _ (by
        intro hnil
        have hiv0 : iv = [] := (List.append_eq_nil.mp (List.append_eq_nil.mp hnil).1).1
        rw [hiv0] at hiv16
        simp at hiv16) this
    have hdec : b64Decode (b64Encode (iv ++ gcmTag key iv ct ++ ct)) =
        iv ++ gcmTag key iv ct ++ ct := by
      rw [b64Encode, b64Decode]
      exact b64_roundtrip _ hallb
    have h1 : (iv ++ gcmTag key iv ct ++ ct).take 16 = iv := by
      rw [List.append_assoc]
      exact List.take_left' hiv16
    have h2 : (iv ++ gcmTag key iv ct ++ ct).drop 16 = gcmTag key iv ct ++ ct := by
      rw [List.append_assoc]
      exact List.drop_left' hiv16
    have h3 : (iv ++ gcmTag key iv ct ++ ct).drop 32 = ct := by
      rw [List.append_assoc, show (32 : Nat) = 16 + 16 from rfl, ← List.drop_drop,
        List.drop_left' hiv16]
      exact List.drop_left' (gcmTag_length key iv ct)
    rw [decrypt]
    simp only [hne, if_false, hdec, h1, h2, h3,
      List.take_left' (gcmTag_length key iv ct)]
    rw [if_neg (by rw [gcmTag_length]; simp)]
    rw [if_pos (beq_self_eq_true (gcmTag key iv ct))]
    rw [hctlen, ← hc]
    rw [zipWith_xor_cancel (by rw [hkslen])]

/-- Closed instantiation of `encrypt_decrypt_roundtrip` at the all-zero key
and IV with plaintext bytes `[104, 83]` ("hS"). -/
theorem encrypt_decrypt_roundtrip_witness :
    ∃ blob, encrypt (List.replicate 32 0) (List.replicate 16 0) [104, 83] =
      some blob ∧
    decrypt (List.replicate 32 0) blob = .ok (some [104, 83]) :=
  encrypt_decrypt_roundtrip (List.replicate 32 0) (List.replicate 16 0) [104, 83]
    (by decide) (by decide) (by decide) (by decide)

set_option maxRecDepth 1000000 in
/-- C5 (counterexample). Flipping bit 1 of character 45 of this concrete
`encrypt` output — a single-bit change of the blob, turning the final `A`
into `C` inside the base64 padding bits that `Buffer.from(..., 'base64')`
discards — yields a different blob that `decrypt` still accepts, returning
the original plaintext instead of failing with `DecryptionError`. -/
theorem decrypt_bit_flip_accepted_cex :
    encrypt (List.replicate 32 0) (List.replicate 16 0) [104, 83] =
      some "AAAAAAAAAAAAAAAAAAAAADNNfj+TfOi4AeYCdoZ0obC3AA==" ∧
    flipCharBit "AAAAAAAAAAAAAAAAAAAAADNNfj+TfOi4AeYCdoZ0obC3AA==" 45 1 =
      "AAAAAAAAAAAAAAAAAAAAADNNfj+TfOi4AeYCdoZ0obC3AC==" ∧
    ("AAAAAAAAAAAAAAAAAAAAADNNfj+TfOi4AeYCdoZ0obC3AC==" : String) ≠
      "AAAAAAAAAAAAAAAAAAAAADNNfj+TfOi4AeYCdoZ0obC3AA==" ∧
    decrypt (List.replicate 32 0) "AAAAAAAAAAAAAAAAAAAAADNNfj+TfOi4AeYCdoZ0obC3AC==" =
      .ok (some [104, 83]) :=
  ⟨by rfl, by rfl, by decide, by rfl⟩

/-- C5 (amended). Any blob whose recomputed GCM tag over the decoded IV and
ciphertext differs from the embedded tag field is rejected by `decrypt` with
the hard `DecryptionError` — never a plaintext; only alterations that leave
the decoded `iv ‖ tag ‖ ciphertext` bytes unchanged (such as flips confined
to the discarded base64 padding bits) are accepted, and those decrypt to the
original plaintext, never to a corrupted one. -/
theorem decrypt_tag_mismatch_fails (key : List Nat) (blob : String)
    (hne : blob ≠ "")
    (hmis : gcmTag key ((b64Decode blob).take 16) ((b64Decode blob).drop 32) ≠
      ((b64Decode blob).drop 16).take 16) :
    decrypt key blob =
      .error "Decryption failed - data may be corrupted or tampered with" := by
  rw [decrypt]
  simp only [hne, if_false]
  by_cases hlen : (((b64Decode blob).drop 16).take 16).length = 16
  · rw [if_neg (by simp [hlen])]
    rw [if_neg (by simpa using hmis)]
  · rw [if_pos (by simpa using hlen)]

set_option maxRecDepth 1000000 in
/-- Closed instantiation of `decrypt_tag_mismatch_fails`: a blob of zeros
carries an embedded tag that does not match the recomputed one. -/
theorem decrypt_tag_mismatch_fails_witness :
    decrypt (List.replicate 32 0) "AAAAAAAAAAAAAAAAAAAAAAAAAAAAAAAAAAAAAAAAAAAAAAAA" =
      .error "Decryption failed - data may be corrupted or tampered with" :=
  decrypt_tag_mismatch_fails (List.replicate 32 0)
    "AAAAAAAAAAAAAAAAAAAAAAAAAAAAAAAAAAAAAAAAAAAAAAAA" (by decide) (by decide)
